import Mathlib

/-!
Verification development for the qmt-bridge incremental download and
cache-reconciliation engine.

The definitions below are a shallow embedding of the Python sources:
  * `src/qmt_bridge/server/downloader.py` (single-call executor, coverage
    probe, gap planner, retrying batch runner, incremental orchestrators),
  * `src/qmt_bridge/server/scheduler.py` (scheduler task wrappers),
  * `src/qmt_bridge/server/app.py` (the xtdata serialization dependency),
  * `scripts/download_all.py` (the interruptible CLI batch runner).

External effects (the native xtquant client, wall-clock time, pandas
frames) are modelled as oracle parameters: a function giving, for each
poll iteration / retry round / job index, the outcome the external world
produced there.  Timeouts are discretised: a deadline becomes the number
of poll iterations that happen strictly before it elapses.
-/

/-- Outcome of one single-instrument download call, as returned by
`download_single_kline` in `server/downloader.py` (strings `"ok"`,
`"timeout"`, `"disconnected"`, `"error: ..."`).  The extra constructor
`exn` stands for the call raising an exception, which the batch runner
(`_run_kline_downloads`) catches and counts as a plain failure. -/
inductive DlStatus where
  | ok
  | timeout
  | disconnected
  | error (msg : String)
  | exn
  deriving DecidableEq, Repr

/-- The `result=True` branch of `download_single_kline`
(`server/downloader.py` lines 219-240): the native call reported the data
as already satisfied, its progress callback will never fire, so the
executor polls `xtdata.get_local_data` directly.  Per iteration `i` the
loop checks `client.is_connected()` (oracle `connected i`), then whether
the local read shows data for the requested instrument/period/range
(oracle `dataPresent i`, covering the `code in check and not empty` test;
a raised exception counts as `false`), then the deadline.  `fuel` is the
number of iterations that start before the deadline elapses. -/
def pollCached (connected dataPresent : Nat → Bool) : Nat → Nat → DlStatus
  | fuel, i =>
    if connected i = false then .disconnected
    else if dataPresent i then .ok
    else
      match fuel with
      | 0 => .timeout
      | f + 1 => pollCached connected dataPresent f (i + 1)

/-- The `result=False` branch of `download_single_kline`
(`server/downloader.py` lines 242-252): the download was accepted
asynchronously, so the executor polls the `status["done"]` flag set by
the progress callback (oracle `done i` is the flag's value when tested at
iteration `i`), checking connectivity and the deadline between polls;
when the loop exits with the flag set, `status["error"]` (oracle `err`,
the final value written by the callback) decides `ok` versus `error`. -/
def pollAsync (connected done : Nat → Bool) (err : String) : Nat → Nat → DlStatus
  | fuel, i =>
    if done i then (if err = "" then .ok else .error err)
    else if connected i = false then .disconnected
    else
      match fuel with
      | 0 => .timeout
      | f + 1 => pollAsync connected done err f (i + 1)

/-- `download_single_kline` (`server/downloader.py` lines 168-252) after
the native `supply_history_data2` call returned `result`.  The `result`
branch never consults the callback oracles; the async branch never
consults the local-read oracle. -/
def download_single_kline (result : Bool) (connected dataPresent done : Nat → Bool)
    (err : String) (fuel : Nat) : DlStatus :=
  if result then pollCached connected dataPresent fuel 0
  else pollAsync connected done err fuel 0

/-- `incrementally` defaulting in `download_single_kline`: `None` means
`not bool(start_time)`, i.e. incremental iff no explicit start bound. -/
def incrementallyDefault (incrementally : Option Bool) (start_time : String) : Bool :=
  match incrementally with
  | some b => b
  | none => start_time = ""

-- ── Calendar model (Python `datetime` dates at day granularity) ───────

/-- A proleptic Gregorian calendar date, the model of the `"YYYYMMDD"`
strings and `datetime` values the downloader manipulates. -/
structure Date where
  y : Nat
  m : Nat
  d : Nat
  deriving DecidableEq, Repr

/-- Gregorian leap-year rule, as implemented by Python `datetime`. -/
def isLeap (y : Nat) : Bool :=
  (y % 4 = 0 && y % 100 ≠ 0) || (y % 400 = 0)

/-- Number of days in month `m` of year `y`. -/
def daysInMonth (y : Nat) : Nat → Nat
  | 2 => if isLeap y then 29 else 28
  | 4 => 30
  | 6 => 30
  | 9 => 30
  | 11 => 30
  | _ => 31

/-- Days of year `y` that lie strictly before month `m`. -/
def daysBeforeMonth (y : Nat) : Nat → Nat
  | 0 => 0
  | 1 => 0
  | m + 2 => daysBeforeMonth y (m + 1) + daysInMonth y (m + 1)

def daysInYear (y : Nat) : Nat :=
  if isLeap y then 366 else 365

/-- Days in all years strictly before year `y`. -/
def daysBeforeYear : Nat → Nat
  | 0 => 0
  | y + 1 => daysBeforeYear y + daysInYear y

/-- Day ordinal of a date (the model of `datetime.toordinal`, up to a
constant offset that cancels in every difference). -/
def Date.toOrd (dt : Date) : Nat :=
  daysBeforeYear dt.y + daysBeforeMonth dt.y dt.m + dt.d

/-- The previous calendar day: the model of
`datetime - timedelta(days=1)`. -/
def predDate (dt : Date) : Date :=
  if 1 < dt.d then ⟨dt.y, dt.m, dt.d - 1⟩
  else if 1 < dt.m then ⟨dt.y, dt.m - 1, daysInMonth dt.y (dt.m - 1)⟩
  else ⟨dt.y - 1, 12, 31⟩

/-- `datetime - timedelta(days=n)`. -/
def subDays (dt : Date) : Nat → Date
  | 0 => dt
  | n + 1 => subDays (predDate dt) n

/-- Validity of a date (what `datetime.strptime` accepts). -/
def ValidDate (dt : Date) : Prop :=
  1 ≤ dt.y ∧ 1 ≤ dt.m ∧ dt.m ≤ 12 ∧ 1 ≤ dt.d ∧ dt.d ≤ daysInMonth dt.y dt.m

/-- Chronological strict order on dates (lexicographic on year, month,
day — which is exactly the order of the `"YYYYMMDD"` strings). -/
def dateBefore (a b : Date) : Prop :=
  a.y < b.y ∨ (a.y = b.y ∧ (a.m < b.m ∨ (a.m = b.m ∧ a.d < b.d)))

instance : DecidablePred fun p : Date × Date => dateBefore p.1 p.2 := by
  intro p
  unfold dateBefore
  infer_instance

-- ── Gap planner for K-line incremental downloads ──────────────────────

/-- `SAFETY_OVERLAP_DAYS` in `server/downloader.py`. -/
def SAFETY_OVERLAP_DAYS : Nat := 1

/-- `STOCK_TIMEOUT.get(period, 10)`: the per-period single-instrument
timeout table of `server/downloader.py`. -/
def STOCK_TIMEOUT (period : String) : Nat :=
  if period = "1m" then 10
  else if period = "5m" then 10
  else if period = "15m" then 10
  else if period = "30m" then 5
  else if period = "60m" then 5
  else if period = "1d" then 5
  else 10

/-- `_gap_sort_key` in `download_kline_incremental`
(`server/downloader.py` lines 484-490).  `localDates` is the coverage
probe's result (`probe_local_dates`: `none` = the instrument is absent
from the returned dict); `hasHistory` is the sentinel-year history probe
(`s ∈ has_history`); an instrument with coverage but without sentinel
history is in `incomplete_stocks`. -/
def gapSortKey (localDates : String → Option Date) (hasHistory : String → Bool)
    (today : Date) (s : String) : Int :=
  match localDates s with
  | none => 999999
  | some d => if hasHistory s = false then 999998 else (today.toOrd : Int) - (d.toOrd : Int)

/-- `sorted(stocks, key=_gap_sort_key, reverse=True)`: stable descending
sort by gap size (largest gaps first). -/
def sortByGap (stocks : List String) (localDates : String → Option Date)
    (hasHistory : String → Bool) (today : Date) : List String :=
  stocks.mergeSort (fun a b =>
    decide (gapSortKey localDates hasHistory today b ≤ gapSortKey localDates hasHistory today a))

/-- The per-instrument start bound computed by the planner loop of
`download_kline_incremental` (`server/downloader.py` lines 494-501):
a cached instrument that passed the history check starts at
`last_date - SAFETY_OVERLAP_DAYS`; otherwise the bound is empty
(`none` models the empty string = full history). -/
def klineStartBound (localDates : String → Option Date) (hasHistory : String → Bool)
    (s : String) : Option Date :=
  match localDates s with
  | some d => if hasHistory s then some (subDays d SAFETY_OVERLAP_DAYS) else none
  | none => none

/-- The `date_groups` list built by `download_kline_incremental`
(`server/downloader.py` lines 492-501): one `(start, end, [stock])` job
per instrument, sorted largest-gap-first; `end` is always empty. -/
def klineDateGroups (stocks : List String) (localDates : String → Option Date)
    (hasHistory : String → Bool) (today : Date) :
    List (Option Date × Option Date × List String) :=
  (sortByGap stocks localDates hasHistory today).map fun s =>
    (klineStartBound localDates hasHistory s, none, [s])

-- ── Batch runner (`_run_kline_downloads`, server version) ─────────────

/-- Per-round counters of `_run_kline_downloads`
(`server/downloader.py` lines 399-438). -/
structure KlineDownloadResult where
  ok : Nat
  fail : Nat
  timeout : Nat
  failed_indices : List Nat
  deriving DecidableEq, Repr

/-- `_run_kline_downloads` (`server/downloader.py` lines 399-438): run
the jobs at the given indices in order; `env idx` is the status
`download_single_kline` produced for index `idx` this round (`.exn` for
a raised exception, which the `except` clause counts as a failure).
An `ok` status increments `ok`; `timeout` increments `timeout` and
`fail` and records the index; every other status increments `fail` and
records the index.  Failures never abort the loop. -/
def run_kline_downloads (env : Nat → DlStatus) : List Nat → KlineDownloadResult
  | [] => ⟨0, 0, 0, []⟩
  | idx :: rest =>
    let r := run_kline_downloads env rest
    match env idx with
    | .ok => ⟨r.ok + 1, r.fail, r.timeout, r.failed_indices⟩
    | .timeout => ⟨r.ok, r.fail + 1, r.timeout + 1, idx :: r.failed_indices⟩
    | _ => ⟨r.ok, r.fail + 1, r.timeout, idx :: r.failed_indices⟩

/-- `int(effective_timeout * (1.5 ** retry_round))`: the per-round retry
timeout.  `1.5 ** r` is the exact rational `3^r / 2^r` (the Python float
arithmetic is exact for every value this code reaches), and `int(...)`
truncates, i.e. floors the non-negative result. -/
def retryTimeout (base r : Nat) : Nat := base * 3 ^ r / 2 ^ r

/-- The retry loop shared by `download_kline_incremental`
(`server/downloader.py` lines 526-536) and
`download_financial_incremental` (lines 600-613):
`for retry_round in range(1, max_retries + 1): if not failed: break;
re-run the failed subset; ok += r.ok; failed = r.failed`.
`runRound r failed` is one re-run of the failed subset in round `r`,
returning that round's success count and new failure list.  The result
additionally carries a trace recording, for each retry round that
actually ran, `(round number, retry timeout, indices re-run)`.
The first component counts the remaining rounds, the second is the
current round number. -/
def retryRounds (runRound : Nat → List Nat → Nat × List Nat) (base : Nat) :
    Nat → Nat → Nat → List Nat → Nat × List Nat × List (Nat × Nat × List Nat)
  | 0, _r, okAcc, failed => (okAcc, failed, [])
  | nrem + 1, r, okAcc, failed =>
    if failed = [] then (okAcc, failed, [])
    else
      let res := runRound r failed
      let out := retryRounds runRound base nrem (r + 1) (okAcc + res.1) res.2
      (out.1, out.2.1, (r, retryTimeout base r, failed) :: out.2.2)

/-- Result of one per-group run with retries inside
`download_kline_incremental` (`server/downloader.py` lines 516-542).
`ok`, `fail` and `timeout` are the amounts added to the orchestrator's
totals for this group: `final_fail = len(failed)`,
`ok = len(group_stocks) - final_fail`, `total_to += len(failed)`.
`finalFailed` is the failure list left after the retry loop, `trace` the
retry-round trace. -/
structure GroupRunResult where
  ok : Int
  fail : Nat
  timeout : Nat
  finalFailed : List Nat
  trace : List (Nat × Nat × List Nat)
  deriving DecidableEq, Repr

/-- One group of `download_kline_incremental`'s download loop
(`server/downloader.py` lines 516-542): the initial round over all `n`
indices at the base timeout, then the retry loop.  `env r idx` is the
status index `idx` would produce in round `r` (round 0 = initial). -/
def kline_group_run (env : Nat → Nat → DlStatus) (base maxRetries n : Nat) :
    GroupRunResult :=
  let res0 := run_kline_downloads (env 0) (List.range n)
  let out := retryRounds
    (fun r failed =>
      let res := run_kline_downloads (env r) failed
      (res.ok, res.failed_indices))
    base maxRetries 1 res0.ok res0.failed_indices
  ⟨(n : Int) - out.2.1.length, out.2.1.length, out.2.1.length, out.2.1, out.2.2⟩

/-- `IncrementalResult` of `server/downloader.py` (the `elapsed`
wall-clock field is omitted: it measures real time and carries no
information about the counts). -/
structure IncrementalResult where
  period : String
  ok : Int
  fail : Int
  timeout : Int
  date_groups : Nat
  deriving DecidableEq, Repr

/-- The group loop of `download_kline_incremental`
(`server/downloader.py` lines 511-542): run each date group in turn,
accumulating `total_ok`, `total_fail`, `total_to`.  `env g` is the
round/index status oracle for group `g`. -/
def runKlineGroups (env : Nat → Nat → Nat → DlStatus) (base maxRetries : Nat) :
    Nat → List (List String) → Int × Int × Int
  | _, [] => (0, 0, 0)
  | g, grp :: rest =>
    let res := kline_group_run (env g) base maxRetries grp.length
    let out := runKlineGroups env base maxRetries (g + 1) rest
    (res.ok + out.1, (res.fail : Int) + out.2.1, (res.timeout : Int) + out.2.2)

/-- `download_kline_incremental` (`server/downloader.py` lines 443-552):
probe results (`localDates`, `hasHistory`), planning (`klineDateGroups`),
then the per-group download/retry loop.  `env g r idx` is the status of
index `idx` of group `g` in round `r`. -/
def download_kline_incremental (stocks : List String) (period : String)
    (localDates : String → Option Date) (hasHistory : String → Bool) (today : Date)
    (env : Nat → Nat → Nat → DlStatus) (maxRetries : Nat) : IncrementalResult :=
  let groups := klineDateGroups stocks localDates hasHistory today
  let base := STOCK_TIMEOUT period
  let out := runKlineGroups env base maxRetries 0 (groups.map fun g => g.2.2)
  ⟨period, out.1, out.2.1, out.2.2, groups.length⟩

-- ── Financial incremental pipeline ────────────────────────────────────

/-- `FINANCIAL_MIN_RECORDS` in `server/downloader.py`. -/
def FINANCIAL_MIN_RECORDS : Nat := 8

/-- `FINANCIAL_STALE_DAYS` in `server/downloader.py`. -/
def FINANCIAL_STALE_DAYS : Nat := 90

/-- What `probe_financial_cache` observes for one instrument in the
primary table: the row count of the returned frame and, if the frame has
an `m_anntime` column, the column's non-null values (after `dropna`).
The source compares the values as equal-width `"YYYYMMDD"` digit
strings, whose lexicographic order coincides with the numeric order of
the encoded number, so the values are modelled as the `Nat` numerals
they spell.  `none` at the outer level models an instrument absent from
the probe result, a non-frame entry, or a batch whose
`get_financial_data` call raised. -/
structure FinDF where
  nrows : Nat
  anntime : Option (List Nat)
  deriving DecidableEq, Repr

/-- Per-instrument classification made by `probe_financial_cache`
(`server/downloader.py` lines 334-374). -/
inductive FinClass where
  | noData
  | incomplete
  | stale
  | fresh
  deriving DecidableEq, Repr

/-- `max_ann.max()`: the largest announcement-date value (pandas' max;
on `"YYYYMMDD"`-width values the string and numeric orders agree). -/
def maxAnnDate (v : List Nat) : Nat :=
  v.foldl (fun a b => if a < b then b else a) 0

/-- The per-instrument body of `probe_financial_cache`
(`server/downloader.py` lines 351-371): skip missing/empty frames; count
`len(df) < FINANCIAL_MIN_RECORDS` as incomplete; with an `m_anntime`
column compare the latest (post-`dropna`) value against the staleness
cutoff (`latest >= stale_cutoff` means fresh, an all-null column means
stale); without the column the instrument is deemed fresh. -/
def classifyFinancial (staleCutoff : Nat) (df : Option FinDF) : FinClass :=
  match df with
  | none => .noData
  | some df =>
    if df.nrows = 0 then .noData
    else if df.nrows < FINANCIAL_MIN_RECORDS then .incomplete
    else
      match df.anntime with
      | none => .fresh
      | some vals =>
        if vals = [] then .stale
        else if staleCutoff ≤ maxAnnDate vals then .fresh else .stale

/-- Membership in the `fresh` set built by `probe_financial_cache`:
`findata s` is what the probe observed for instrument `s` and
`staleCutoff` is `(now - FINANCIAL_STALE_DAYS days)` as `"YYYYMMDD"`. -/
def financialFresh (staleCutoff : Nat) (findata : String → Option FinDF)
    (s : String) : Bool :=
  decide (classifyFinancial staleCutoff (findata s) = .fresh)

/-- `need_download = [s for s in stocks if s not in fresh]`
(`server/downloader.py` line 578). -/
def financial_need_download (stocks : List String) (staleCutoff : Nat)
    (findata : String → Option FinDF) : List String :=
  stocks.filter fun s => !(financialFresh staleCutoff findata s)

/-- `make_batches` (`server/downloader.py` lines 120-122): split a list
into consecutive chunks of `size` (the Python source raises on
`size = 0`; every caller passes a positive size, modelled as `[]`). -/
def make_batches (l : List α) (size : Nat) : List (List α) :=
  match l with
  | [] => []
  | a :: t =>
    if _h2 : size = 0 then []
    else (a :: t).take size :: make_batches ((a :: t).drop size) size
termination_by l.length
decreasing_by
  simp only [List.length_drop, List.length_cons]
  omega

/-- Outcome of one `download_financial_data2` batch call inside
`_run_financial_batches`: success, `FutureTimeoutError`, or any other
exception. -/
inductive FinOutcome where
  | ok
  | timeout
  | exn
  deriving DecidableEq, Repr

/-- `_run_financial_batches` (`server/downloader.py` lines 625-674):
run the batches at the given indices in order; success adds the batch
size to `ok_count`; a timeout increments `timeout_count`, adds the batch
size to `fail_count` and records the index; any other exception adds the
batch size to `fail_count` and records the index.
Returns `(ok_count, fail_count, timeout_count, failed_indices)`. -/
def run_financial_batches (batches : List (List String)) (env : Nat → FinOutcome) :
    List Nat → Nat × Nat × Nat × List Nat
  | [] => (0, 0, 0, [])
  | idx :: rest =>
    let out := run_financial_batches batches env rest
    match env idx with
    | .ok => (out.1 + (batches.getD idx []).length, out.2.1, out.2.2.1, out.2.2.2)
    | .timeout =>
        (out.1, out.2.1 + (batches.getD idx []).length, out.2.2.1 + 1, idx :: out.2.2.2)
    | .exn =>
        (out.1, out.2.1 + (batches.getD idx []).length, out.2.2.1, idx :: out.2.2.2)

/-- `sum(len(batches[i]) for i in failed)`. -/
def finFailStockCount (batches : List (List String)) (failed : List Nat) : Nat :=
  (failed.map fun i => (batches.getD i []).length).sum

/-- The `{"ok": n, "fail": n, "timeout": n}` dict returned by
`download_financial_incremental`. -/
structure FinRes where
  ok : Int
  fail : Int
  timeout : Int
  deriving DecidableEq, Repr

/-- `download_financial_incremental` (`server/downloader.py`
lines 555-622): probe the financial cache, drop fresh instruments, batch
the rest, run the batches once and then through the retry loop, and fix
up the final counts:
`n_cached = n_original - len(stocks)`,
`final_fail_stocks = sum(len(batches[i]) for i in failed)`,
`ok = len(stocks) - final_fail_stocks + n_cached`,
`fail = final_fail_stocks`, `to = len(failed)`.
`env r idx` is the outcome of batch `idx` in round `r`. -/
def download_financial_incremental (stocks : List String) (staleCutoff : Nat)
    (findata : String → Option FinDF) (env : Nat → Nat → FinOutcome)
    (batch_size timeoutBase maxRetries : Nat) : FinRes :=
  let n_original := stocks.length
  let need := financial_need_download stocks staleCutoff findata
  if need = [] then ⟨(n_original : Int), 0, 0⟩
  else
    let batches := make_batches need batch_size
    let res0 := run_financial_batches batches (env 0) (List.range batches.length)
    let out := retryRounds
      (fun r failed =>
        let rr := run_financial_batches batches (env r) failed
        (rr.1, rr.2.2.2))
      timeoutBase maxRetries 1 res0.1 res0.2.2.2
    let failed := out.2.1
    let n_cached : Int := (n_original : Int) - need.length
    let ffs := finFailStockCount batches failed
    ⟨(need.length : Int) - (ffs : Int) + n_cached, (ffs : Int), (failed.length : Int)⟩

-- ── Scheduler state and task wrappers (`server/scheduler.py`) ─────────

/-- Payload stored in `DownloadSchedulerState._last_results`: the kline
tasks store `asdict(IncrementalResult)`, the financial task stores the
`{"ok","fail","timeout"}` dict. -/
inductive TaskResult where
  | kline (r : IncrementalResult)
  | financial (r : FinRes)
  deriving Repr

/-- `DownloadSchedulerState` (`server/downloader.py` lines 88-115):
per-task running flags, last results, and last-run times (modelled as an
abstract `Nat` timestamp). -/
structure SchedState where
  running : String → Bool
  lastResults : String → Option TaskResult
  lastRunTimes : String → Option Nat

/-- `set_running(task_key, running)`. -/
def setRunning (st : SchedState) (key : String) (b : Bool) : SchedState :=
  ⟨fun k => if k = key then b else st.running k, st.lastResults, st.lastRunTimes⟩

/-- `set_result(task_key, result)`: records the result and stamps
`datetime.now()` (parameter `now`). -/
def setResult (st : SchedState) (key : String) (res : TaskResult) (now : Nat) :
    SchedState :=
  ⟨st.running,
   fun k => if k = key then some res else st.lastResults k,
   fun k => if k = key then some now else st.lastRunTimes k⟩

/-- One per-period iteration of `_run_kline_incremental`
(`server/scheduler.py` lines 93-108): skip if the key is already marked
running; otherwise set the running flag, run the download (outcome
`.ok r` for a normal return, `.error ()` when it raised — in which case
only the exception is logged), record the result on success, and clear
the running flag in the `finally` block. -/
def runKlineTask (st : SchedState) (period : String)
    (outcome : Except Unit IncrementalResult) (now : Nat) : SchedState :=
  let key := "kline:" ++ period
  if st.running key then st
  else
    let st1 := setRunning st key true
    let st2 :=
      match outcome with
      | .ok r => setResult st1 key (.kline r) now
      | .error _ => st1
    setRunning st2 key false

/-- `_run_financial_incremental` (`server/scheduler.py` lines 111-147):
skip if `"financial"` is already running; fetching the stock list happens
before the flag is set, and a fetch failure or an empty list returns
without touching the state; otherwise set the flag, run, record on
success, clear the flag in `finally`. -/
def runFinancialTask (st : SchedState) (stockFetch : Except Unit (List String))
    (outcome : Except Unit FinRes) (now : Nat) : SchedState :=
  if st.running "financial" then st
  else
    match stockFetch with
    | .error _ => st
    | .ok [] => st
    | .ok (_ :: _) =>
      let st1 := setRunning st "financial" true
      let st2 :=
        match outcome with
        | .ok r => setResult st1 "financial" (.financial r) now
        | .error _ => st1
      setRunning st2 "financial" false

-- ── Serialization-guard model (`server/app.py`, `server/scheduler.py`) ─

/-- Events a task can perform against the shared lock and the native
client: `acquire`/`release` of the per-process `asyncio.Lock`
(`_xtdata_lock` in `server/app.py`), and entering/leaving a call into
the native xtdata client. -/
inductive LAction where
  | acquire
  | release
  | nstart
  | nend
  deriving DecidableEq, Repr

/-- The event sequence of one HTTP request through a data router:
the `_xtdata_serialize` dependency (`server/app.py` lines 40-46) runs
the handler's native call inside `async with _xtdata_lock`, so the lock
is acquired before the call and released after it even when the handler
raises (the exception propagates out of the native call, i.e. after its
`nend`, and the `async with` still releases). -/
def httpRouteProgram : List LAction := [.acquire, .nstart, .nend, .release]

/-- The event sequence of one scheduler kline task
(`server/scheduler.py` lines 100-108): `download_kline_incremental` is
submitted to the executor with no lock acquisition anywhere on the path
— `scheduler.py` neither imports nor touches `_xtdata_lock` or
`xtdata_lock.xtdata_lock`. -/
def schedulerTaskProgram : List LAction := [.nstart, .nend]

/-- A WebSocket endpoint's native interaction (`server/app.py`
lines 206-211): the ws routers are registered without the
`_xtdata_serialize` dependency, so their native subscription calls are
not guarded by the lock. -/
def wsRouteProgram : List LAction := [.nstart, .nend]

/-- Interleaving state: who holds the lock, each task's remaining
program, and which tasks are currently inside a native call. -/
structure MState where
  lock : Option Nat
  rem : Nat → List LAction
  inNative : Nat → Bool

/-- One scheduling step: task `t` performs its next action if enabled.
`acquire` blocks (no-op) while the lock is held; `release` is effective
only for the holder; native-call boundaries never consult the lock —
that is precisely why an unguarded program can overlap a guarded one. -/
def mstep (s : MState) (t : Nat) : MState :=
  match s.rem t with
  | [] => s
  | a :: rest =>
    match a with
    | .acquire =>
      match s.lock with
      | none => ⟨some t, fun u => if u = t then rest else s.rem u, s.inNative⟩
      | some _ => s
    | .release =>
      if s.lock = some t then ⟨none, fun u => if u = t then rest else s.rem u, s.inNative⟩
      else s
    | .nstart =>
      ⟨s.lock, fun u => if u = t then rest else s.rem u,
       fun u => if u = t then true else s.inNative u⟩
    | .nend =>
      ⟨s.lock, fun u => if u = t then rest else s.rem u,
       fun u => if u = t then false else s.inNative u⟩

/-- Run a whole schedule (an arbitrary interleaving). -/
def mrun (s : MState) : List Nat → MState
  | [] => s
  | t :: ts => mrun (mstep s t) ts

/-- Initial state for a family of task programs. -/
def initMState (progs : Nat → List LAction) : MState :=
  ⟨none, progs, fun _ => false⟩

/-- Scoped-acquisition discipline of a program, checked by a scan that
tracks whether the lock is held and whether a native call is open:
acquiring requires the lock free, releasing requires holding it with no
native call open, and native-call boundaries require holding it. -/
def lockScan : Bool → Bool → List LAction → Bool
  | _, _, [] => true
  | held, inN, .acquire :: r => !held && lockScan true inN r
  | held, inN, .release :: r => held && !inN && lockScan false inN r
  | held, _inN, .nstart :: r => held && lockScan held true r
  | held, _inN, .nend :: r => held && lockScan held false r

/-- `true` iff task `t` holds the lock in state `s`. -/
def heldBy (s : MState) (t : Nat) : Bool :=
  match s.lock with
  | some u => u == t
  | none => false

-- ── The interruptible CLI batch runner (`scripts/download_all.py`) ────

/-- Outcome of one download attempt in the CLI runner
(`scripts/download_all.py`): the statuses of `_download_single_kline`
(which, unlike the server variant, returns `"cached"` directly), a raised
generic exception (`exn`), or a `KeyboardInterrupt` delivered during the
call (`interrupt`). -/
inductive ScriptOutcome where
  | ok
  | cached
  | timeout
  | disconnected
  | error (msg : String)
  | exn
  | interrupt
  deriving DecidableEq, Repr

/-- Result of one round of the CLI `_run_kline_downloads`
(`scripts/download_all.py` lines 262-336), plus `completed`: the indices
whose download attempt recorded an outcome — instrumentation of the loop
structure, used to state that jobs after an interrupt are never
attempted. -/
structure ScriptRunResult where
  ok : Nat
  fail : Nat
  timeout : Nat
  failed : List Nat
  interrupted : Bool
  completed : List Nat
  deriving DecidableEq, Repr

/-- CLI `_run_kline_downloads` (`scripts/download_all.py` lines 262-336):
`"ok"`/`"cached"` count as success, `"timeout"` as timeout+failure,
everything else as failure; a `KeyboardInterrupt` makes the function
return immediately with the counts gathered so far and
`interrupted=True`; the interrupted call itself records no outcome, and
no later index is attempted. -/
def script_run_kline (env : Nat → ScriptOutcome) : List Nat → ScriptRunResult
  | [] => ⟨0, 0, 0, [], false, []⟩
  | idx :: rest =>
    match env idx with
    | .interrupt => ⟨0, 0, 0, [], true, []⟩
    | .ok =>
      let r := script_run_kline env rest
      ⟨r.ok + 1, r.fail, r.timeout, r.failed, r.interrupted, idx :: r.completed⟩
    | .cached =>
      let r := script_run_kline env rest
      ⟨r.ok + 1, r.fail, r.timeout, r.failed, r.interrupted, idx :: r.completed⟩
    | .timeout =>
      let r := script_run_kline env rest
      ⟨r.ok, r.fail + 1, r.timeout + 1, idx :: r.failed, r.interrupted, idx :: r.completed⟩
    | .disconnected =>
      let r := script_run_kline env rest
      ⟨r.ok, r.fail + 1, r.timeout, idx :: r.failed, r.interrupted, idx :: r.completed⟩
    | .error _ =>
      let r := script_run_kline env rest
      ⟨r.ok, r.fail + 1, r.timeout, idx :: r.failed, r.interrupted, idx :: r.completed⟩
    | .exn =>
      let r := script_run_kline env rest
      ⟨r.ok, r.fail + 1, r.timeout, idx :: r.failed, r.interrupted, idx :: r.completed⟩

/-- The retry loop of `download_kline_v2` (`scripts/download_all.py`
lines 839-860): `for retry_round in range(1, effective_retries + 1):
if not failed or interrupted: break; re-run failed; ok += r_ok;
failed = still_failed`.  Returns the accumulated ok count, the final
failure list, the interrupted flag, the indices completed during retry
rounds, and the number of retry rounds that ran. -/
def script_retry_rounds (env : Nat → Nat → ScriptOutcome) :
    Nat → Nat → Nat → List Nat → Bool → Nat × List Nat × Bool × List Nat × Nat
  | 0, _r, okAcc, failed, intr => (okAcc, failed, intr, [], 0)
  | nrem + 1, r, okAcc, failed, intr =>
    if failed = [] ∨ intr = true then (okAcc, failed, intr, [], 0)
    else
      let res := script_run_kline (env r) failed
      let out := script_retry_rounds env nrem (r + 1) (okAcc + res.ok) res.failed res.interrupted
      (out.1, out.2.1, out.2.2.1, res.completed ++ out.2.2.2.1, out.2.2.2.2 + 1)

/-- Totals of one group of `download_kline_v2`
(`scripts/download_all.py` lines 824-875):
`final_fail = len(failed)`;
`ok = len(group_stocks) - final_fail if not interrupted else ok`;
the `timeout` total contribution is `len(failed)`. -/
structure ScriptGroupResult where
  ok : Int
  fail : Nat
  timeout : Nat
  finalFailed : List Nat
  interrupted : Bool
  completed : List Nat
  retryRoundsRun : Nat
  deriving DecidableEq, Repr

/-- One group of `download_kline_v2` (`scripts/download_all.py`
lines 824-875): the initial round over all `n` indices, then the
interruptible retry loop, then the final count fix-up.  `env r idx` is
the outcome of index `idx` in round `r` (round 0 = initial). -/
def script_group_run (env : Nat → Nat → ScriptOutcome) (maxRetries n : Nat) :
    ScriptGroupResult :=
  let res0 := script_run_kline (env 0) (List.range n)
  let out := script_retry_rounds env maxRetries 1 res0.ok res0.failed res0.interrupted
  let failed := out.2.1
  let intr := out.2.2.1
  let okFinal : Int := if intr then (out.1 : Int) else (n : Int) - failed.length
  ⟨okFinal, failed.length, failed.length, failed, intr,
   res0.completed ++ out.2.2.2.1, out.2.2.2.2⟩

-- ── Spec-side definition for the reported timeout count ───────────────

/-- Modelled from the spec's phrase "timeout = count of jobs whose final
status was timeout": the jobs in the final failed set whose status in
the last round that ran them (`trace.length` retry rounds ran, so the
last round is `trace.length`, or round 0 if no retry ran) was
`timeout`.  This is the spec's claimed value of the reported `timeout`
field, defined here to compare against what the code computes. -/
def specFinalTimeoutCount (env : Nat → Nat → DlStatus) (base maxRetries n : Nat) : Nat :=
  let G := kline_group_run env base maxRetries n
  (G.finalFailed.filter fun j => decide (env G.trace.length j = DlStatus.timeout)).length

/-- The retry-loop contract, stated as a checkable predicate over the
trace left by `retryRounds`: starting at round `r` with `nrem` rounds
remaining and failure list `failed`, the trace records one entry
`(round, timeout, re-run indices)` per executed retry round, where the
round numbers are consecutive, the timeout of round `r` is
`retryTimeout base r`, the indices re-run are exactly the current
failure list (which is non-empty whenever a round runs), the next
failure list is the round's output, the loop stops early only when the
failure list is empty, and `final` is the failure list left at the
end. -/
def retryChainOk (runRound : Nat → List Nat → Nat × List Nat) (base : Nat) :
    Nat → Nat → List Nat → List (Nat × Nat × List Nat) → List Nat → Bool
  | 0, _r, failed, trace, final => decide (trace = []) && decide (final = failed)
  | nrem + 1, r, failed, trace, final =>
    match trace with
    | [] => decide (final = failed) && decide (failed = [])
    | (r', t, idxs) :: rest =>
      decide (r' = r) && decide (t = retryTimeout base r) && decide (idxs = failed) &&
      !(decide (failed = [])) &&
      retryChainOk runRound base nrem (r + 1) (runRound r failed).2 rest final

-- ────────────────────────────────────────────────────────────────────
-- Theorems
-- ────────────────────────────────────────────────────────────────────

-- ── Polling-loop lemmas for the single-call executor ──────────────────

theorem pollCached_ok (connected dataPresent : Nat → Bool) :
    ∀ (fuel i : Nat),
      (∀ k, connected k = true) →
      (∃ j, i ≤ j ∧ j ≤ i + fuel ∧ dataPresent j = true) →
      pollCached connected dataPresent fuel i = .ok := by
  intro fuel
  induction fuel with
  | zero =>
    intro i hconn ⟨j, hij, hji, hdata⟩
    have hj : j = i := by omega
    rw [hj] at hdata
    simp [pollCached, hconn i, hdata]
  | succ f ih =>
    intro i hconn ⟨j, hij, hji, hdata⟩
    by_cases h : dataPresent i = true
    · simp [pollCached, hconn i, h]
    · have hne : j ≠ i := fun hji' => h (hji' ▸ hdata)
      simp only [pollCached, hconn i, h]
      simp only [Bool.true_eq_false, if_false, Bool.false_eq_true]
      exact ih (i + 1) hconn ⟨j, by omega, by omega, hdata⟩

theorem pollCached_timeout (connected dataPresent : Nat → Bool) :
    ∀ (fuel i : Nat),
      (∀ k, connected k = true) →
      (∀ k, i ≤ k → k ≤ i + fuel → dataPresent k = false) →
      pollCached connected dataPresent fuel i = .timeout := by
  intro fuel
  induction fuel with
  | zero =>
    intro i hconn hnone
    simp [pollCached, hconn i, hnone i le_rfl (by omega)]
  | succ f ih =>
    intro i hconn hnone
    simp only [pollCached, hconn i, hnone i le_rfl (by omega)]
    simp only [Bool.true_eq_false, if_false, Bool.false_eq_true]
    exact ih (i + 1) hconn (fun k hk hk' => hnone k (by omega) (by omega))

theorem predDate_before (dt : Date) (h : ValidDate dt) : dateBefore (predDate dt) dt := by
  obtain ⟨y, m, d⟩ := dt
  obtain ⟨hy, hm1, hm12, hd1, _hdm⟩ := h
  unfold predDate
  split_ifs with h1 h2 <;> dsimp only at * <;> simp [dateBefore] <;> omega

/-- C1: when the native `supply_history_data2` call returns the
cached/true result (so the progress callback never fires), the executor
does not wait on the callback — its outcome is independent of the
callback oracles — and instead it polls the local read: while the client
stays connected it returns `ok` as soon as the local read shows data
within the deadline, and returns `timeout` when the deadline elapses
with no data observed; being a total function, it never hangs past the
given timeout. -/
theorem c1_cached_result_uses_local_read_confirmation
    (connected dataPresent done done' : Nat → Bool) (err err' : String) (fuel : Nat)
    (hconn : ∀ i, connected i = true) :
    download_single_kline true connected dataPresent done err fuel =
        download_single_kline true connected dataPresent done' err' fuel
    ∧ ((∃ j, j ≤ fuel ∧ dataPresent j = true) →
        download_single_kline true connected dataPresent done err fuel = .ok)
    ∧ ((∀ j, j ≤ fuel → dataPresent j = false) →
        download_single_kline true connected dataPresent done err fuel = .timeout) := by
  refine ⟨rfl, ?_, ?_⟩
  · rintro ⟨j, hj, hdata⟩
    show pollCached connected dataPresent fuel 0 = .ok
    exact pollCached_ok connected dataPresent fuel 0 hconn ⟨j, by omega, by omega, hdata⟩
  · intro hnone
    show pollCached connected dataPresent fuel 0 = .timeout
    exact pollCached_timeout connected dataPresent fuel 0 hconn
      (fun k hk hk' => hnone k (by omega))

/-- Witness for C1 at a concrete input: a fake client that is always
connected, whose local read shows the data from poll iteration 1 on, and
whose callback flag never (respectively always) fires: the executor
returns `ok` within the deadline either way. -/
theorem c1_witness :
    download_single_kline true (fun _ => true) (fun j => decide (1 ≤ j)) (fun _ => false)
        "" 3 = .ok
    ∧ download_single_kline true (fun _ => true) (fun j => decide (1 ≤ j)) (fun _ => false)
          "" 3 =
        download_single_kline true (fun _ => true) (fun j => decide (1 ≤ j)) (fun _ => true)
          "boom" 3 := by
  have h := c1_cached_result_uses_local_read_confirmation
    (fun _ => true) (fun j => decide (1 ≤ j)) (fun _ => false) (fun _ => true)
    "" "boom" 3 (fun _ => rfl)
  exact ⟨h.2.1 ⟨1, by decide, by decide⟩, h.1⟩

-- ── Mutual exclusion for lock-disciplined tasks (C2) ─────────────────

theorem mstep_keeps_inv (s : MState) (t0 : Nat)
    (hscan : ∀ t, lockScan (heldBy s t) (s.inNative t) (s.rem t) = true)
    (hnat : ∀ t, s.inNative t = true → s.lock = some t) :
    (∀ t, lockScan (heldBy (mstep s t0) t) ((mstep s t0).inNative t)
        ((mstep s t0).rem t) = true)
    ∧ (∀ t, (mstep s t0).inNative t = true → (mstep s t0).lock = some t) := by
  cases hrem : s.rem t0 with
  | nil =>
    simp only [mstep, hrem]
    exact ⟨hscan, hnat⟩
  | cons a rest =>
    have h0 := hscan t0
    rw [hrem] at h0
    cases a with
    | acquire =>
      cases hlock : s.lock with
      | none =>
        have hfalse : heldBy s t0 = false := by simp [heldBy, hlock]
        rw [hfalse] at h0
        simp only [lockScan, Bool.not_false, Bool.true_and] at h0
        simp only [mstep, hrem, hlock]
        constructor
        · intro t
          simp only [heldBy]
          by_cases ht : t = t0
          · subst ht
            simpa using h0
          · have hb : (t0 == t) = false := by
              simp [beq_eq_false_iff_ne]
              exact fun h => ht h.symm
            have hf : heldBy s t = false := by simp [heldBy, hlock]
            have h1 := hscan t
            rw [hf] at h1
            simpa [hb, ht] using h1
        · intro t hN
          exact absurd (hnat t hN) (by simp [hlock])
      | some v =>
        have hs : mstep s t0 = s := by simp [mstep, hrem, hlock]
        rw [hs]
        exact ⟨hscan, hnat⟩
    | release =>
      by_cases hl : s.lock = some t0
      · have htrue : heldBy s t0 = true := by simp [heldBy, hl]
        rw [htrue] at h0
        simp only [lockScan, Bool.true_and, Bool.and_eq_true, Bool.not_eq_true'] at h0
        obtain ⟨hN0, hrest⟩ := h0
        simp only [mstep, hrem, hl, if_true]
        constructor
        · intro t
          simp only [heldBy]
          by_cases ht : t = t0
          · subst ht
            simpa [hN0] using hrest
          · have hf : heldBy s t = false := by
              simp only [heldBy, hl, beq_eq_false_iff_ne]
              exact fun h => ht h.symm
            have h1 := hscan t
            rw [hf] at h1
            simpa [ht] using h1
        · intro t hN
          have hlt := hnat t hN
          rw [hl] at hlt
          have ht0 : t0 = t := by simpa using hlt
          rw [← ht0] at hN
          rw [hN0] at hN
          cases hN
      · have hs : mstep s t0 = s := by
          simp only [mstep, hrem]
          rw [if_neg hl]
        rw [hs]
        exact ⟨hscan, hnat⟩
    | nstart =>
      simp only [lockScan, Bool.and_eq_true] at h0
      obtain ⟨hheld, hrest⟩ := h0
      have hl : s.lock = some t0 := by
        unfold heldBy at hheld
        cases hlock : s.lock with
        | none => rw [hlock] at hheld; simp at hheld
        | some v =>
          rw [hlock] at hheld
          simp only [beq_iff_eq] at hheld
          rw [hheld]
      simp only [mstep, hrem]
      constructor
      · intro t
        by_cases ht : t = t0
        · subst ht
          have hb : heldBy ⟨s.lock, fun u => if u = t then rest else s.rem u,
              fun u => if u = t then true else s.inNative u⟩ t = heldBy s t := rfl
          rw [hb, if_pos rfl, if_pos rfl, hheld]
          rw [hheld] at hrest
          exact hrest
        · have hb : heldBy ⟨s.lock, fun u => if u = t0 then rest else s.rem u,
              fun u => if u = t0 then true else s.inNative u⟩ t = heldBy s t := rfl
          rw [hb, if_neg ht, if_neg ht]
          exact hscan t
      · intro t hN
        by_cases ht : t = t0
        · subst ht; exact hl
        · rw [if_neg ht] at hN
          exact hnat t hN
    | nend =>
      simp only [lockScan, Bool.and_eq_true] at h0
      obtain ⟨hheld, hrest⟩ := h0
      simp only [mstep, hrem]
      constructor
      · intro t
        by_cases ht : t = t0
        · subst ht
          have hb : heldBy ⟨s.lock, fun u => if u = t then rest else s.rem u,
              fun u => if u = t then false else s.inNative u⟩ t = heldBy s t := rfl
          rw [hb, if_pos rfl, if_pos rfl, hheld]
          rw [hheld] at hrest
          exact hrest
        · have hb : heldBy ⟨s.lock, fun u => if u = t0 then rest else s.rem u,
              fun u => if u = t0 then false else s.inNative u⟩ t = heldBy s t := rfl
          rw [hb, if_neg ht, if_neg ht]
          exact hscan t
      · intro t hN
        by_cases ht : t = t0
        · rw [if_pos ht] at hN; cases hN
        · rw [if_neg ht] at hN
          exact hnat t hN

theorem mrun_keeps_inv (sched : List Nat) : ∀ (s : MState),
    (∀ t, lockScan (heldBy s t) (s.inNative t) (s.rem t) = true) →
    (∀ t, s.inNative t = true → s.lock = some t) →
    (∀ t, lockScan (heldBy (mrun s sched) t) ((mrun s sched).inNative t)
        ((mrun s sched).rem t) = true)
    ∧ (∀ t, (mrun s sched).inNative t = true → (mrun s sched).lock = some t) := by
  induction sched with
  | nil => intro s hscan hnat; exact ⟨hscan, hnat⟩
  | cons t0 ts ih =>
    intro s hscan hnat
    have h := mstep_keeps_inv s t0 hscan hnat
    exact ih (mstep s t0) h.1 h.2

/-- C2 (amended): within the API server process, every task that follows
the scoped-acquisition discipline of the HTTP route path — acquire the
single per-process lock, do the native call, release, as
`_xtdata_serialize` does, with release even on exception — can never
overlap a native call with another such task, under every interleaving;
the HTTP route program satisfies that discipline, while the
SchedulerLoop task path and the WebSocket path contain no lock
acquisition at all (the scheduler runs in the separate `qmt-scheduler`
process and `scheduler.py` never touches the lock; WebSocket routers are
registered without the serialization dependency). -/
theorem c2_amended (progs : Nat → List LAction)
    (hdisc : ∀ t, lockScan false false (progs t) = true) :
    (∀ sched t t', (mrun (initMState progs) sched).inNative t = true →
        (mrun (initMState progs) sched).inNative t' = true → t = t')
    ∧ lockScan false false httpRouteProgram = true
    ∧ schedulerTaskProgram.contains LAction.acquire = false
    ∧ wsRouteProgram.contains LAction.acquire = false := by
  refine ⟨?_, by decide, by decide, by decide⟩
  intro sched t t' hn hn'
  have hinv := mrun_keeps_inv sched (initMState progs)
    (fun u => hdisc u) (fun u h => Bool.noConfusion h)
  have h1 := hinv.2 t hn
  have h2 := hinv.2 t' hn'
  rw [h1] at h2
  exact Option.some.inj h2

/-- C2 counterexample: the claim that every code path into the native
client — the SchedulerLoop path included — acquires the serialization
lock, so that at most one native call is in flight under every
interleaving, is false on the code: the scheduler task program contains
no acquire, and in the interleaving where an HTTP request holds the lock
inside its native call and a scheduler task then starts its own native
call, both tasks are inside the native client simultaneously. -/
theorem c2_counterexample :
    ((mrun (initMState fun t => if t = 0 then httpRouteProgram else schedulerTaskProgram)
        [0, 0, 1]).inNative 0 = true)
    ∧ ((mrun (initMState fun t => if t = 0 then httpRouteProgram else schedulerTaskProgram)
        [0, 0, 1]).inNative 1 = true) :=
  ⟨rfl, rfl⟩

/-- Witness for C2 (amended) at a concrete input: two tasks both running
the HTTP route program, scheduled `[0, 0]` so task 0 is mid-native-call;
the theorem's mutual exclusion applies (and the scheduler program indeed
has no acquire). -/
theorem c2_amended_witness :
    (0 : Nat) = 0 ∧ schedulerTaskProgram.contains LAction.acquire = false :=
  have hhttp : lockScan false false httpRouteProgram = true := by decide
  have h := c2_amended (fun _ => httpRouteProgram) (fun _ => hhttp)
  ⟨h.1 [0, 0] 0 0 rfl rfl, h.2.2.1⟩

-- ── Batch runner and retry-loop lemmas (C3, C5, C10) ──────────────────

theorem run_kline_failed_sublist (env : Nat → DlStatus) :
    ∀ idxs : List Nat, (run_kline_downloads env idxs).failed_indices.Sublist idxs := by
  intro idxs
  induction idxs with
  | nil => simp [run_kline_downloads]
  | cons idx rest ih =>
    simp only [run_kline_downloads]
    cases env idx with
    | ok => exact ih.cons idx
    | timeout => exact ih.cons₂ idx
    | disconnected => exact ih.cons₂ idx
    | error m => exact ih.cons₂ idx
    | exn => exact ih.cons₂ idx

theorem run_kline_counts (env : Nat → DlStatus) :
    ∀ idxs : List Nat,
      (run_kline_downloads env idxs).ok + (run_kline_downloads env idxs).fail = idxs.length
      ∧ (run_kline_downloads env idxs).fail
          = (run_kline_downloads env idxs).failed_indices.length := by
  intro idxs
  induction idxs with
  | nil => simp [run_kline_downloads]
  | cons idx rest ih =>
    simp only [run_kline_downloads, List.length_cons]
    cases env idx <;> simp_all <;> omega

theorem retryRounds_chain (runRound : Nat → List Nat → Nat × List Nat) (base : Nat) :
    ∀ (nrem r okAcc : Nat) (failed : List Nat),
      retryChainOk runRound base nrem r failed
        (retryRounds runRound base nrem r okAcc failed).2.2
        (retryRounds runRound base nrem r okAcc failed).2.1 = true
      ∧ (retryRounds runRound base nrem r okAcc failed).2.2.length ≤ nrem := by
  intro nrem
  induction nrem with
  | zero =>
    intro r okAcc failed
    simp [retryRounds, retryChainOk]
  | succ n ih =>
    intro r okAcc failed
    by_cases hf : failed = []
    · subst hf
      simp [retryRounds, retryChainOk]
    · simp only [retryRounds, if_neg hf]
      have hih := ih (r + 1) (okAcc + (runRound r failed).1) (runRound r failed).2
      constructor
      · simp only [retryChainOk]
        simp [hf, hih.1]
      · simpa using Nat.succ_le_succ hih.2

theorem retryRounds_sublist (runRound : Nat → List Nat → Nat × List Nat) (base : Nat)
    (hsub : ∀ r f, (runRound r f).2.Sublist f) :
    ∀ (nrem r okAcc : Nat) (failed : List Nat),
      (retryRounds runRound base nrem r okAcc failed).2.1.Sublist failed
      ∧ ∀ e ∈ (retryRounds runRound base nrem r okAcc failed).2.2, e.2.2.Sublist failed := by
  intro nrem
  induction nrem with
  | zero =>
    intro r okAcc failed
    simp only [retryRounds]
    exact ⟨List.Sublist.refl failed, by simp⟩
  | succ n ih =>
    intro r okAcc failed
    by_cases hf : failed = []
    · subst hf
      simp only [retryRounds, if_pos rfl]
      exact ⟨List.Sublist.refl [], by simp⟩
    · simp only [retryRounds, if_neg hf]
      have hih := ih (r + 1) (okAcc + (runRound r failed).1) (runRound r failed).2
      refine ⟨hih.1.trans (hsub r failed), ?_⟩
      intro e he
      simp only [List.mem_cons] at he
      cases he with
      | inl h => rw [h]
      | inr h => exact (hih.2 e h).trans (hsub r failed)

/-- C5: the retry loop shared by the kline and financial incremental
runners satisfies, for every job list, every round oracle and every
`max_retries` bound: the trace of executed retry rounds obeys
`retryChainOk` — consecutive rounds starting at 1, each running only
while the failure set is non-empty, with timeout `base * 1.5^r`
(integer-truncated) in round `r`, re-running exactly the current
failure set and replacing it with the round's new failures — at most
`maxRetries` rounds run, and (when each round's failures are a
subsequence of what it ran, as `_run_kline_downloads` and
`_run_financial_batches` guarantee) every re-run list and the final
failure set preserve the original relative order of the round-0
failure list. -/
theorem c5_retry_rounds (runRound : Nat → List Nat → Nat × List Nat)
    (base maxRetries okAcc : Nat) (failed0 : List Nat)
    (hsub : ∀ r f, (runRound r f).2.Sublist f) :
    retryChainOk runRound base maxRetries 1 failed0
        (retryRounds runRound base maxRetries 1 okAcc failed0).2.2
        (retryRounds runRound base maxRetries 1 okAcc failed0).2.1 = true
    ∧ (retryRounds runRound base maxRetries 1 okAcc failed0).2.2.length ≤ maxRetries
    ∧ (retryRounds runRound base maxRetries 1 okAcc failed0).2.1.Sublist failed0
    ∧ ∀ e ∈ (retryRounds runRound base maxRetries 1 okAcc failed0).2.2,
        e.2.2.Sublist failed0 := by
  have h1 := retryRounds_chain runRound base maxRetries 1 okAcc failed0
  have h2 := retryRounds_sublist runRound base hsub maxRetries 1 okAcc failed0
  exact ⟨h1.1, h1.2, h2.1, h2.2⟩

/-- Witness for C5 at a concrete input: two failed jobs `[0, 2]` where
job 0 keeps timing out and job 2 succeeds on retry; with base timeout 5
and `max_retries = 2` the loop runs retry rounds 1 and 2 with timeouts
`int(5*1.5) = 7` and `int(5*2.25) = 11`, re-running `[0, 2]` then `[0]`,
and ends with `[0]` still failed. -/
theorem c5_witness :
    retryChainOk
        (fun _r failed =>
          let res := run_kline_downloads
            (fun i => if i = 0 then DlStatus.timeout else DlStatus.ok) failed
          (res.ok, res.failed_indices)) 5 2 1 [0, 2]
        [(1, 7, [0, 2]), (2, 11, [0])] [0] = true
    ∧ (retryRounds
        (fun _r failed =>
          let res := run_kline_downloads
            (fun i => if i = 0 then DlStatus.timeout else DlStatus.ok) failed
          (res.ok, res.failed_indices)) 5 2 1 0 [0, 2]).2.2
      = [(1, 7, [0, 2]), (2, 11, [0])] := by
  have h := c5_retry_rounds
    (fun _r failed =>
      let res := run_kline_downloads
        (fun i => if i = 0 then DlStatus.timeout else DlStatus.ok) failed
      (res.ok, res.failed_indices)) 5 2 0 [0, 2]
    (fun r f => run_kline_failed_sublist _ f)
  have htr : (retryRounds
      (fun _r failed =>
        let res := run_kline_downloads
          (fun i => if i = 0 then DlStatus.timeout else DlStatus.ok) failed
        (res.ok, res.failed_indices)) 5 2 1 0 [0, 2]).2.2
      = [(1, 7, [0, 2]), (2, 11, [0])] := by decide
  have hfin : (retryRounds
      (fun _r failed =>
        let res := run_kline_downloads
          (fun i => if i = 0 then DlStatus.timeout else DlStatus.ok) failed
        (res.ok, res.failed_indices)) 5 2 1 0 [0, 2]).2.1 = [0] := by decide
  refine ⟨?_, htr⟩
  have h1 := h.1
  rw [htr, hfin] at h1
  exact h1

/-- C3 (amended): for every job list and every outcome of the retry
loop, the per-group counts reported by the kline batch runner satisfy
`ok = total − len(final failed set)` and `fail = len(final failed set)`
— but the reported `timeout` equals `len(final failed set)` as well
(the code adds `len(failed)` to the timeout total), not the count of
jobs whose final status was timeout; the final failed set is a
subsequence of the job indices, so each job is counted at most once. -/
theorem c3_amended_counts (env : Nat → Nat → DlStatus) (base maxRetries n : Nat) :
    (kline_group_run env base maxRetries n).ok
        = (n : Int) - ((kline_group_run env base maxRetries n).finalFailed.length : Int)
    ∧ (kline_group_run env base maxRetries n).fail
        = (kline_group_run env base maxRetries n).finalFailed.length
    ∧ (kline_group_run env base maxRetries n).timeout
        = (kline_group_run env base maxRetries n).finalFailed.length
    ∧ (kline_group_run env base maxRetries n).finalFailed.Sublist (List.range n) := by
  refine ⟨rfl, rfl, rfl, ?_⟩
  have h := retryRounds_sublist
    (fun r failed =>
      let res := run_kline_downloads (env r) failed
      (res.ok, res.failed_indices))
    base (fun r f => run_kline_failed_sublist (env r) f) maxRetries 1
    (run_kline_downloads (env 0) (List.range n)).ok
    (run_kline_downloads (env 0) (List.range n)).failed_indices
  exact h.1.trans (run_kline_failed_sublist (env 0) (List.range n))

/-- C3 counterexample: with a single job whose call reports
`disconnected` in every round (no call ever returns a timeout status),
the batch runner reports `timeout = 1`, while the count of jobs whose
final status was timeout is 0 — so `timeout` is not "the count of jobs
whose final status was timeout". -/
theorem c3_counterexample :
    (kline_group_run (fun _ _ => DlStatus.disconnected) 5 2 1).timeout = 1
    ∧ specFinalTimeoutCount (fun _ _ => DlStatus.disconnected) 5 2 1 = 0 := by
  decide

-- ── Count conservation (C10) ──────────────────────────────────────────

theorem kline_group_ok_fail (env : Nat → Nat → DlStatus) (base maxRetries n : Nat) :
    (kline_group_run env base maxRetries n).ok
      + ((kline_group_run env base maxRetries n).fail : Int) = n := by
  simp only [kline_group_run]
  omega

theorem runKlineGroups_sum (env : Nat → Nat → Nat → DlStatus) (base maxRetries : Nat) :
    ∀ (grps : List (List String)) (g : Nat),
      (runKlineGroups env base maxRetries g grps).1
        + (runKlineGroups env base maxRetries g grps).2.1
        = ((grps.map List.length).sum : Int) := by
  intro grps
  induction grps with
  | nil => intro g; simp [runKlineGroups]
  | cons grp rest ih =>
    intro g
    simp only [runKlineGroups, List.map_cons, List.sum_cons]
    have h1 := kline_group_ok_fail (env g) base maxRetries grp.length
    have h2 := ih (g + 1)
    push_cast
    push_cast at h1 h2
    omega

theorem klineDateGroups_job_lists (stocks : List String)
    (localDates : String → Option Date) (hasHistory : String → Bool) (today : Date) :
    ((klineDateGroups stocks localDates hasHistory today).map fun g => g.2.2)
      = (sortByGap stocks localDates hasHistory today).map fun s => [s] := by
  simp [klineDateGroups, List.map_map]

/-- C10: count conservation at the orchestrator interface — for every
input stock list and every environment, `download_kline_incremental`
reports `ok + fail` equal to the number of input stocks and
`date_groups` equal to the number of input stocks (one job per
instrument), and `download_financial_incremental` reports `ok + fail`
equal to the number of input stocks. -/
theorem c10_count_conservation (stocks : List String) (period : String)
    (localDates : String → Option Date) (hasHistory : String → Bool) (today : Date)
    (env : Nat → Nat → Nat → DlStatus) (maxRetries : Nat)
    (staleCutoff : Nat) (findata : String → Option FinDF)
    (fenv : Nat → Nat → FinOutcome) (batch_size timeoutBase maxRetries2 : Nat) :
    (download_kline_incremental stocks period localDates hasHistory today env maxRetries).ok
      + (download_kline_incremental stocks period localDates hasHistory today env
          maxRetries).fail
      = (stocks.length : Int)
    ∧ (download_kline_incremental stocks period localDates hasHistory today env
          maxRetries).date_groups
      = stocks.length
    ∧ (download_financial_incremental stocks staleCutoff findata fenv batch_size
          timeoutBase maxRetries2).ok
      + (download_financial_incremental stocks staleCutoff findata fenv batch_size
          timeoutBase maxRetries2).fail
      = (stocks.length : Int) := by
  refine ⟨?_, ?_, ?_⟩
  · simp only [download_kline_incremental]
    rw [runKlineGroups_sum env (STOCK_TIMEOUT period) maxRetries]
    rw [klineDateGroups_job_lists]
    rw [List.map_map]
    have : (List.length ∘ fun s : String => [s]) = fun _ => 1 := by
      funext s; simp
    rw [this]
    simp [sortByGap, List.length_mergeSort]
  · simp only [download_kline_incremental]
    simp [klineDateGroups, sortByGap, List.length_mergeSort]
  · by_cases hneed : financial_need_download stocks staleCutoff findata = []
    · simp [download_financial_incremental, hneed]
    · simp only [download_financial_incremental, if_neg hneed]
      omega

-- ── Gap-planner start bounds (C4, C9) ─────────────────────────────────

theorem klineDateGroups_mem (stocks : List String) (localDates : String → Option Date)
    (hasHistory : String → Bool) (today : Date)
    (g : Option Date × Option Date × List String)
    (hg : g ∈ klineDateGroups stocks localDates hasHistory today) :
    ∃ s, g = (klineStartBound localDates hasHistory s, none, [s]) := by
  simp only [klineDateGroups, List.mem_map] at hg
  obtain ⟨s, _, hs⟩ := hg
  exact ⟨s, hs.symm⟩

/-- C4 (amended): every instrument that appears in the coverage-probe
result with last-available date `D` AND passes the sentinel-year
history-completeness check gets `start_bound = D − SAFETY_OVERLAP_DAYS`
(one day), which for a valid date is strictly before `D` and never
empty; an instrument with coverage that FAILS the history check is
routed to full history instead: its job's `start_bound` is empty. -/
theorem c4_start_bound_with_overlap (stocks : List String)
    (localDates : String → Option Date) (hasHistory : String → Bool) (today : Date)
    (g : Option Date × Option Date × List String) (s : String) (d : Date)
    (hg : g ∈ klineDateGroups stocks localDates hasHistory today)
    (hs : g.2.2 = [s]) (hd : localDates s = some d) :
    (hasHistory s = true →
      g.1 = some (subDays d SAFETY_OVERLAP_DAYS)
      ∧ (ValidDate d → dateBefore (subDays d SAFETY_OVERLAP_DAYS) d))
    ∧ (hasHistory s = false → g.1 = none) := by
  obtain ⟨s', hgs⟩ := klineDateGroups_mem stocks localDates hasHistory today g hg
  have hss : s' = s := by
    rw [hgs] at hs
    simpa using hs
  subst hss
  rw [hgs]
  constructor
  · intro hh
    refine ⟨by simp [klineStartBound, hd, hh], fun hv => ?_⟩
    have hsub : subDays d SAFETY_OVERLAP_DAYS = predDate d := rfl
    rw [hsub]
    exact predDate_before d hv
  · intro hh
    simp [klineStartBound, hd, hh]

/-- C4 counterexample: an instrument that appears in the coverage-probe
result with date `D = 2024-01-15` but is flagged incomplete-history
(no data in the sentinel year) gets a job with EMPTY `start_bound`, not
`D − 1 day` — so, as stated (for every instrument in the probe result),
the claim is false. -/
theorem c4_counterexample :
    klineDateGroups ["000001.SZ"] (fun _ => some ⟨2024, 1, 15⟩) (fun _ => false)
        ⟨2024, 3, 1⟩
      = [(none, none, ["000001.SZ"])]
    ∧ (fun _ : String => some (⟨2024, 1, 15⟩ : Date)) "000001.SZ" = some ⟨2024, 1, 15⟩
    ∧ (none : Option Date) ≠ some (subDays ⟨2024, 1, 15⟩ SAFETY_OVERLAP_DAYS) := by
  refine ⟨?_, rfl, by decide⟩
  simp [klineDateGroups, sortByGap, List.mergeSort_singleton, klineStartBound]

/-- Witness for C4 (amended) at a concrete input: an instrument with
coverage `2024-03-01` passing the history check gets
`start_bound = 2024-02-29` (leap day), strictly before its coverage
date. -/
theorem c4_witness :
    (some (⟨2024, 2, 29⟩ : Date), (none : Option Date), ["000001.SZ"]).1
      = some (subDays ⟨2024, 3, 1⟩ SAFETY_OVERLAP_DAYS)
    ∧ dateBefore (subDays ⟨2024, 3, 1⟩ SAFETY_OVERLAP_DAYS) ⟨2024, 3, 1⟩ := by
  have hg : ((some (⟨2024, 2, 29⟩ : Date), (none : Option Date), ["000001.SZ"]))
      ∈ klineDateGroups ["000001.SZ"] (fun _ => some ⟨2024, 3, 1⟩) (fun _ => true)
          ⟨2024, 3, 5⟩ := by
    simp only [klineDateGroups, sortByGap, List.mergeSort_singleton, List.map_cons,
      List.map_nil]
    simp only [List.mem_singleton]
    decide
  have h := c4_start_bound_with_overlap ["000001.SZ"] (fun _ => some ⟨2024, 3, 1⟩)
    (fun _ => true) ⟨2024, 3, 5⟩ _ "000001.SZ" ⟨2024, 3, 1⟩ hg rfl rfl
  have h2 := h.1 rfl
  exact ⟨h2.1, h2.2 (by unfold ValidDate; refine ⟨?_, ?_, ?_, ?_, ?_⟩ <;> decide)⟩

/-- C9: every instrument absent from the coverage-probe result (no local
data — including instruments dropped because their probe batch raised,
which `probe_local_dates` simply omits from its result) gets a job whose
`start_bound` is empty, i.e. full history is requested. -/
theorem c9_absent_means_full_history (stocks : List String)
    (localDates : String → Option Date) (hasHistory : String → Bool) (today : Date)
    (g : Option Date × Option Date × List String) (s : String)
    (hg : g ∈ klineDateGroups stocks localDates hasHistory today)
    (hs : g.2.2 = [s]) (habs : localDates s = none) :
    g.1 = none := by
  obtain ⟨s', hgs⟩ := klineDateGroups_mem stocks localDates hasHistory today g hg
  have hss : s' = s := by
    rw [hgs] at hs
    simpa using hs
  subst hss
  rw [hgs]
  simp [klineStartBound, habs]

/-- Witness for C9 at a concrete input: an instrument with no local data
gets the full-history job `(empty, empty, [s])`. -/
theorem c9_witness :
    ((none : Option Date), (none : Option Date), ["600000.SH"]).1 = none := by
  have hg : (((none : Option Date), (none : Option Date), ["600000.SH"]))
      ∈ klineDateGroups ["600000.SH"] (fun _ => none) (fun _ => true) ⟨2024, 3, 5⟩ := by
    simp only [klineDateGroups, sortByGap, List.mergeSort_singleton, List.map_cons,
      List.map_nil]
    simp only [List.mem_singleton]
    decide
  exact c9_absent_means_full_history ["600000.SH"] (fun _ => none) (fun _ => true)
    ⟨2024, 3, 5⟩ _ "600000.SH" hg rfl rfl

-- ── Interrupt handling in the CLI batch runner (C6) ───────────────────

theorem script_run_interrupt (env : Nat → ScriptOutcome) :
    ∀ (idxs : List Nat) (k : Nat), k < idxs.length →
      (∀ i ∈ idxs.take k, env i ≠ .interrupt) →
      env (idxs.getD k 0) = .interrupt →
      (script_run_kline env idxs).interrupted = true
      ∧ (script_run_kline env idxs).completed = idxs.take k
      ∧ (script_run_kline env idxs).ok ≤ k := by
  intro idxs
  induction idxs with
  | nil =>
    intro k hk
    exact absurd hk (by simp)
  | cons idx rest ih =>
    intro k hk hpre hint
    cases k with
    | zero =>
      have hidx : env idx = .interrupt := by simpa using hint
      simp [script_run_kline, hidx]
    | succ k' =>
      have hidx : env idx ≠ .interrupt := hpre idx (by simp)
      have hih := ih k' (by simpa using hk)
        (fun i hi => hpre i (by simp [hi])) (by simpa using hint)
      cases he : env idx with
      | interrupt => exact absurd he hidx
      | ok =>
        refine ⟨?_, ?_, ?_⟩ <;> simp [script_run_kline, he, hih.1, hih.2.1]
        exact hih.2.2
      | cached =>
        refine ⟨?_, ?_, ?_⟩ <;> simp [script_run_kline, he, hih.1, hih.2.1]
        exact hih.2.2
      | timeout =>
        refine ⟨?_, ?_, ?_⟩ <;> simp [script_run_kline, he, hih.1, hih.2.1]
        exact hih.2.2.trans (Nat.le_succ k')
      | disconnected =>
        refine ⟨?_, ?_, ?_⟩ <;> simp [script_run_kline, he, hih.1, hih.2.1]
        exact hih.2.2.trans (Nat.le_succ k')
      | error m =>
        refine ⟨?_, ?_, ?_⟩ <;> simp [script_run_kline, he, hih.1, hih.2.1]
        exact hih.2.2.trans (Nat.le_succ k')
      | exn =>
        refine ⟨?_, ?_, ?_⟩ <;> simp [script_run_kline, he, hih.1, hih.2.1]
        exact hih.2.2.trans (Nat.le_succ k')

theorem script_retry_interrupted (env : Nat → Nat → ScriptOutcome) :
    ∀ (nrem r okAcc : Nat) (failed : List Nat),
      script_retry_rounds env nrem r okAcc failed true = (okAcc, failed, true, [], 0) := by
  intro nrem
  cases nrem with
  | zero => intro r okAcc failed; rfl
  | succ n => intro r okAcc failed; simp [script_retry_rounds]

/-- C6: if a user interrupt arrives while the CLI batch runner processes
the job after index `k` (the first `k` jobs of the initial round ran
without interrupt, and the next attempted call raises
`KeyboardInterrupt`), the runner stops immediately: only the first `k`
jobs ever record an outcome (no later job is attempted), no retry round
runs, the result is marked interrupted, and the partial ok count
(`ok ≤ k`) is returned rather than dropped or raised. -/
theorem c6_interrupt_stops_batch (env : Nat → Nat → ScriptOutcome) (maxRetries n k : Nat)
    (hk : k < n)
    (hpre : ∀ i ∈ (List.range n).take k, env 0 i ≠ .interrupt)
    (hint : env 0 ((List.range n).getD k 0) = .interrupt) :
    (script_group_run env maxRetries n).interrupted = true
    ∧ (script_group_run env maxRetries n).ok ≤ (k : Int)
    ∧ (script_group_run env maxRetries n).retryRoundsRun = 0
    ∧ (script_group_run env maxRetries n).completed = (List.range n).take k := by
  have h0 := script_run_interrupt (env 0) (List.range n) k (by simpa using hk) hpre hint
  simp only [script_group_run, h0.1, script_retry_interrupted]
  refine ⟨by trivial, ?_, by trivial, ?_⟩
  · simp only [if_true]
    exact_mod_cast h0.2.2
  · rw [List.append_nil]
    exact h0.2.1

/-- Witness for C6 at a concrete input: three jobs, job 0 succeeds, the
interrupt is raised during job 1: the run is marked interrupted with
`ok ≤ 1`, zero retry rounds, and only job 0 recorded. -/
theorem c6_witness :
    (script_group_run
        (fun r i => if r = 0 ∧ i = 1 then ScriptOutcome.interrupt else .ok) 2 3).interrupted
      = true
    ∧ (script_group_run
        (fun r i => if r = 0 ∧ i = 1 then ScriptOutcome.interrupt else .ok) 2 3).ok
      ≤ (1 : Int)
    ∧ (script_group_run
        (fun r i => if r = 0 ∧ i = 1 then ScriptOutcome.interrupt else .ok) 2
          3).retryRoundsRun
      = 0
    ∧ (script_group_run
        (fun r i => if r = 0 ∧ i = 1 then ScriptOutcome.interrupt else .ok) 2 3).completed
      = (List.range 3).take 1 := by
  exact c6_interrupt_stops_batch
    (fun r i => if r = 0 ∧ i = 1 then ScriptOutcome.interrupt else .ok) 2 3 1
    (by decide) (by decide) (by decide)

-- ── Scheduler task bookkeeping (C7) ───────────────────────────────────

/-- C7 (amended): for every scheduler task invocation, a task key
already marked running is skipped for that cycle (state unchanged);
otherwise the key's running flag is guaranteed clear after the task
completes, whether it returned normally or raised; on a normal return
the result and the last-run time are recorded for the key, but on an
exception the previous entry is left unchanged (only the flag is
cleared).  The same holds for the financial task, whose stock-list
fetch failures additionally leave the state untouched. -/
theorem c7_scheduler_state_updates (st : SchedState) (period : String)
    (outcome : Except Unit IncrementalResult) (now : Nat)
    (fstocks : Except Unit (List String)) (foutcome : Except Unit FinRes) (fnow : Nat) :
    (st.running ("kline:" ++ period) = true → runKlineTask st period outcome now = st)
    ∧ (st.running ("kline:" ++ period) = false →
        (runKlineTask st period outcome now).running ("kline:" ++ period) = false
        ∧ (∀ r, outcome = .ok r →
            (runKlineTask st period outcome now).lastResults ("kline:" ++ period)
                = some (.kline r)
            ∧ (runKlineTask st period outcome now).lastRunTimes ("kline:" ++ period)
                = some now)
        ∧ (∀ e, outcome = .error e →
            (runKlineTask st period outcome now).lastResults ("kline:" ++ period)
                = st.lastResults ("kline:" ++ period)))
    ∧ (st.running "financial" = true → runFinancialTask st fstocks foutcome fnow = st)
    ∧ (st.running "financial" = false →
        (runFinancialTask st fstocks foutcome fnow).running "financial" = false
        ∧ (∀ l r, fstocks = .ok l → l ≠ [] → foutcome = .ok r →
            (runFinancialTask st fstocks foutcome fnow).lastResults "financial"
                = some (.financial r))
        ∧ (∀ e, foutcome = .error e →
            (runFinancialTask st fstocks foutcome fnow).lastResults "financial"
                = st.lastResults "financial")) := by
  refine ⟨?_, ?_, ?_, ?_⟩
  · intro h
    simp [runKlineTask, h]
  · intro h
    refine ⟨?_, ?_, ?_⟩
    · cases outcome <;> simp [runKlineTask, h, setRunning, setResult]
    · intro r hr
      subst hr
      constructor <;> simp [runKlineTask, h, setRunning, setResult]
    · intro e he
      subst he
      simp [runKlineTask, h, setRunning, setResult]
  · intro h
    simp [runFinancialTask, h]
  · intro h
    refine ⟨?_, ?_, ?_⟩
    · cases fstocks with
      | error e => simp [runFinancialTask, h]
      | ok l =>
        cases l with
        | nil => simp [runFinancialTask, h]
        | cons a t =>
          cases foutcome <;> simp [runFinancialTask, h, setRunning, setResult]
    · intro l r hl hne hr
      subst hl
      subst hr
      cases l with
      | nil => exact absurd rfl hne
      | cons a t => simp [runFinancialTask, h, setRunning, setResult]
    · intro e he
      subst he
      cases fstocks with
      | error e2 => simp [runFinancialTask, h]
      | ok l =>
        cases l with
        | nil => simp [runFinancialTask, h]
        | cons a t => simp [runFinancialTask, h, setRunning, setResult]

/-- C7 counterexample: a kline task that raises an exception, starting
from an idle empty state, leaves the SchedulerState entry for its key
NOT updated — no result and no last-run time are recorded (only the
running flag is cleared) — contradicting the claim that the entry is
updated whether the task returns normally or raises. -/
theorem c7_counterexample :
    (runKlineTask ⟨fun _ => false, fun _ => none, fun _ => none⟩ "1d"
        (.error ()) 7).lastResults "kline:1d" = none
    ∧ (runKlineTask ⟨fun _ => false, fun _ => none, fun _ => none⟩ "1d"
        (.error ()) 7).lastRunTimes "kline:1d" = none
    ∧ (runKlineTask ⟨fun _ => false, fun _ => none, fun _ => none⟩ "1d"
        (.error ()) 7).running "kline:1d" = false := by
  refine ⟨rfl, rfl, ?_⟩
  simp [runKlineTask, setRunning]

/-- Witness for C7 (amended) at a concrete input: a kline task that
returns normally, from an idle empty state, records its result and
last-run time and clears its running flag. -/
theorem c7_witness :
    (runKlineTask ⟨fun _ => false, fun _ => none, fun _ => none⟩ "1d"
        (.ok ⟨"1d", 5, 0, 0, 5⟩) 7).lastResults "kline:1d"
      = some (.kline ⟨"1d", 5, 0, 0, 5⟩)
    ∧ (runKlineTask ⟨fun _ => false, fun _ => none, fun _ => none⟩ "1d"
        (.ok ⟨"1d", 5, 0, 0, 5⟩) 7).running "kline:1d" = false := by
  have h := c7_scheduler_state_updates ⟨fun _ => false, fun _ => none, fun _ => none⟩
    "1d" (.ok ⟨"1d", 5, 0, 0, 5⟩) 7 (.ok ["000001.SZ"]) (.ok ⟨1, 0, 0⟩) 9
  have h2 := h.2.1 rfl
  exact ⟨(h2.2.1 _ rfl).1, h2.1⟩

-- ── Financial freshness filter (C8) ───────────────────────────────────

theorem classify_fresh_iff (staleCutoff : Nat) (df : FinDF) (v : Nat)
    (vs : List Nat) (hann : df.anntime = some (v :: vs)) :
    classifyFinancial staleCutoff (some df) = .fresh
      ↔ (FINANCIAL_MIN_RECORDS ≤ df.nrows ∧ staleCutoff ≤ maxAnnDate (v :: vs)) := by
  simp only [classifyFinancial, hann]
  by_cases h0 : df.nrows = 0
  · simp only [h0, if_pos rfl]
    simp [FINANCIAL_MIN_RECORDS]
  · by_cases h8 : df.nrows < FINANCIAL_MIN_RECORDS
    · simp only [if_neg h0, if_pos h8]
      simp
      omega
    · by_cases hle : staleCutoff ≤ maxAnnDate (v :: vs)
      · simp only [if_neg h0, if_neg h8]
        simp [hle]
        omega
      · simp only [if_neg h0, if_neg h8]
        simp [hle]

/-- C8: for an instrument in the financial-incremental input whose probe
returned the primary table's frame with a non-empty announcement-date
column, the instrument is excluded from `need_download` exactly when its
latest announcement date is within the staleness window
(`latest ≥ stale_cutoff`) AND its record count is at least
`FINANCIAL_MIN_RECORDS` (8); an instrument failing either condition
remains in `need_download`. -/
theorem c8_freshness_skip (stocks : List String) (staleCutoff : Nat)
    (findata : String → Option FinDF) (s : String) (df : FinDF) (v : Nat)
    (vs : List Nat)
    (hin : s ∈ stocks) (hdf : findata s = some df) (hann : df.anntime = some (v :: vs)) :
    (FINANCIAL_MIN_RECORDS ≤ df.nrows ∧ staleCutoff ≤ maxAnnDate (v :: vs))
      ↔ s ∉ financial_need_download stocks staleCutoff findata := by
  rw [← classify_fresh_iff staleCutoff df v vs hann]
  rw [← hdf]
  constructor
  · intro hfr hmem
    rw [financial_need_download, List.mem_filter] at hmem
    have hb := hmem.2
    simp [financialFresh, hfr] at hb
  · intro hno
    by_contra hnf
    apply hno
    rw [financial_need_download, List.mem_filter]
    refine ⟨hin, ?_⟩
    simp [financialFresh, hnf]

/-- Witness for C8 at a concrete input: an instrument with 10 records
and latest announcement `2025-09-01`, probed with staleness cutoff
`2025-07-14` (within the 90-day window), is excluded from
`need_download` entirely. -/
theorem c8_witness :
    "000001.SZ" ∉ financial_need_download ["000001.SZ"] 20250714
        (fun _ => some ⟨10, some [20250901]⟩) := by
  have h := c8_freshness_skip ["000001.SZ"] 20250714
    (fun _ => some ⟨10, some [20250901]⟩) "000001.SZ" ⟨10, some [20250901]⟩
    20250901 [] (by decide) rfl rfl
  exact h.mp (by decide)
